import Mathlib

/-!
Shallow embedding of the shape-overlay OBS video filter
(`src/shape_overlay_filter.cpp`): the detection-and-compositing engine.

Pixel buffers are modelled as byte maps `Nat → Nat` (byte index to byte
value), `cv::Mat` images as structures carrying dimensions and a pixel
function, machine floats/doubles as exact rationals, and C++ machine
integers as `Nat`/`Int` with explicit wrap-around where overflow matters.
External library calls (OpenCV `imread`, `matchTemplate` + `minMaxLoc`,
`resize`, and the OBS clock `os_gettime_ns`) are supplied as oracle
parameters: the embedding covers the repository's own logic around them.
-/

namespace ShapeOverlay

/-- C++ `static_cast<int>` from a floating value: truncation toward zero
(floats abstracted as exact rationals). -/
def truncInt (q : ℚ) : Int := if 0 ≤ q then ⌊q⌋ else ⌈q⌉

/-- C++ conversion of an `int` to `uint8_t`: reduction mod 256. -/
def byteOfInt (v : Int) : Nat := (v % 256).toNat

/-- A single-channel (grayscale) `cv::Mat`: dimensions plus pixel values,
`px row col` being the byte at that position. -/
structure GrayImage where
  w : Nat
  h : Nat
  px : Nat → Nat → Nat

/-- `cv::Mat::empty()` for a grayscale image: no rows or no columns. -/
def GrayImage.isEmpty (g : GrayImage) : Bool := g.w == 0 || g.h == 0

/-- A 4-channel BGRA `cv::Mat`: `px row col c` is channel `c` of the pixel
(0 = B, 1 = G, 2 = R, 3 = alpha). -/
structure Overlay where
  w : Nat
  h : Nat
  px : Nat → Nat → Fin 4 → Nat

/-- `cv::Mat::empty()` for an overlay image. -/
def Overlay.isEmpty (o : Overlay) : Bool := o.w == 0 || o.h == 0

/-- A raster as returned by `cv::imread(path, IMREAD_UNCHANGED)`: arbitrary
channel count. -/
structure RawImage where
  w : Nat
  h : Nat
  channels : Nat
  px : Nat → Nat → Nat → Nat

/-- `cv::Mat::empty()` for a decoded raster. -/
def RawImage.isEmpty (r : RawImage) : Bool := r.w == 0 || r.h == 0

/-- An `obs_source_frame`: pixel format tag, dimensions, row stride in
bytes (`linesize[0]`) and the raw data plane (`data[0]`) as a byte map. -/
structure Frame where
  format : Nat
  width : Nat
  height : Nat
  linesize : Nat
  data : Nat → Nat

/-- `VIDEO_FORMAT_BGRA` from the OBS `video_format` enum. -/
def VIDEO_FORMAT_BGRA : Nat := 7

/-- `VIDEO_FORMAT_BGRX` from the OBS `video_format` enum. -/
def VIDEO_FORMAT_BGRX : Nat := 8

/-- `cv::cvtColor(frame_bgra, frame_gray, COLOR_BGRA2GRAY)` on the frame's
data plane: OpenCV's fixed-point BT.601 luma, an external library call whose
result the filter only feeds back into the (also external) matcher; its
dimensions are those of the frame. -/
def cvtColor_BGRA2GRAY (f : Frame) : GrayImage :=
  { w := f.width
    h := f.height
    px := fun y x =>
      let b := f.data (y * f.linesize + x * 4)
      let g := f.data (y * f.linesize + x * 4 + 1)
      let r := f.data (y * f.linesize + x * 4 + 2)
      (b * 1868 + g * 9617 + r * 4899 + 8192) / 16384 }

/-- The result of `cv::matchTemplate` + `cv::minMaxLoc` (external library
calls): the global maximum of the correlation surface and its location. -/
structure MatchSurface where
  maxVal : ℚ
  maxX : Int
  maxY : Int

/-- The caller-owned contents of `detect_template`'s out parameters
`*out_x`, `*out_y`, `*out_score` (all passed non-null by the filter). -/
structure DetectOuts where
  x : Int
  y : Int
  score : ℚ

/-- `detect_template`: fail-closed checks, then the correlation maximum
(supplied by the `surf` oracle standing for `matchTemplate`/`minMaxLoc`),
score write-back, and the inclusive threshold comparison.  Returns the
`bool` result together with the final contents of the out parameters. -/
def detect_template (frame_gray templ_gray : GrayImage) (threshold : ℚ)
    (surf : MatchSurface) (outs : DetectOuts) : Bool × DetectOuts :=
  if frame_gray.isEmpty || templ_gray.isEmpty then (false, outs)
  else if templ_gray.w > frame_gray.w || templ_gray.h > frame_gray.h then (false, outs)
  else
    let outs1 := { outs with score := surf.maxVal }
    if surf.maxVal ≥ threshold then
      (true, { outs1 with x := surf.maxX, y := surf.maxY })
    else (false, outs1)

/-- `static_cast<int>(static_cast<float>(src_px[3]) * opacity + 0.5f)`:
the effective source alpha after opacity scaling. -/
def effSrcAlpha (alpha : Nat) (opacity : ℚ) : Int :=
  truncInt ((alpha : ℚ) * opacity + 1/2)

/-- The row-major list of destination pixel coordinates `(fy, fx)` visited
by the two nested loops of `blend_overlay_bgra`. -/
def loopCoords (sy sx ny nx : Nat) : List (Nat × Nat) :=
  (List.range ny).flatMap (fun ry => (List.range nx).map (fun rx => (sy + ry, sx + rx)))

/-- One iteration of the inner loop of `blend_overlay_bgra`: blend the
overlay pixel onto destination pixel `p = (fy, fx)` of the byte map `m`.
`src_alpha <= 0` skips the pixel; otherwise the three colour channels are
blended with the `+127` rounding bias and the alpha byte is set to 255. -/
def blendStep (ov : Overlay) (opacity : ℚ) (dst_linesize : Nat) (dst_x dst_y : Int)
    (m : Nat → Nat) (p : Nat × Nat) : Nat → Nat :=
  let oy := ((p.1 : Int) - dst_y).toNat
  let ox := ((p.2 : Int) - dst_x).toNat
  let base := p.1 * dst_linesize + p.2 * 4
  let a := effSrcAlpha (ov.px oy ox 3) opacity
  if a ≤ 0 then m
  else
    let inv := 255 - a
    let b0 := byteOfInt (((ov.px oy ox 0 : Int) * a + (m base : Int) * inv + 127).tdiv 255)
    let b1 := byteOfInt (((ov.px oy ox 1 : Int) * a + (m (base + 1) : Int) * inv + 127).tdiv 255)
    let b2 := byteOfInt (((ov.px oy ox 2 : Int) * a + (m (base + 2) : Int) * inv + 127).tdiv 255)
    fun i =>
      if i = base then b0
      else if i = base + 1 then b1
      else if i = base + 2 then b2
      else if i = base + 3 then 255
      else m i

/-- `blend_overlay_bgra`: clip the overlay rectangle placed at
`(dst_x, dst_y)` against the frame bounds and alpha-blend the visible part
onto the destination byte map, mutating it pixel by pixel in loop order. -/
def blend_overlay_bgra (dst : Nat → Nat) (dst_linesize : Nat) (frame_w frame_h : Int)
    (ov : Overlay) (dst_x dst_y : Int) (opacity : ℚ) : Nat → Nat :=
  if ov.w = 0 ∨ ov.h = 0 then dst
  else
    let start_x := max 0 dst_x
    let start_y := max 0 dst_y
    let end_x := min frame_w (dst_x + (ov.w : Int))
    let end_y := min frame_h (dst_y + (ov.h : Int))
    if end_x ≤ start_x ∨ end_y ≤ start_y then dst
    else
      (loopCoords start_y.toNat start_x.toNat (end_y - start_y).toNat
          (end_x - start_x).toNat).foldl
        (blendStep ov opacity dst_linesize dst_x dst_y) dst

/-- The per-instance `shape_overlay_filter_data` struct: configuration
fields plus the mutable detection state. -/
structure FilterData where
  template_path : String
  overlay_path : String
  template_gray : GrayImage
  overlay_bgra : Overlay
  overlay_draw : Overlay
  threshold : ℚ
  interval_ms : Nat
  opacity : ℚ
  offset_x : Int
  offset_y : Int
  scale_overlay : Bool
  only_when_matched : Bool
  last_detect_ts : Nat
  last_x : Int
  last_y : Int
  last_score : ℚ
  last_valid : Bool
  warned_format : Bool

/-- `uint64_t` subtraction `a - b` with wrap-around (used on the
monotonic-clock difference `now - last_detect_ts`). -/
def sub64 (a b : Nat) : Nat := (a + 2 ^ 64 - b) % 2 ^ 64

/-- `should_detect`: `(interval_ms == 0) || (now - last_detect_ts >=
interval_ns)` with `interval_ns = interval_ms * 1000000`. -/
def shouldDetect (f : FilterData) (now : Nat) : Bool :=
  f.interval_ms == 0 || decide (f.interval_ms * 1000000 ≤ sub64 now f.last_detect_ts)

/-- The detection branch of `shape_overlay_filter_video`: grayscale
conversion, `detect_template` with zero-initialised locals, and the
match/miss state update, ending with `last_detect_ts = now`. -/
def detectStep (surf : GrayImage → GrayImage → MatchSurface) (now : Nat)
    (f : FilterData) (frame : Frame) : FilterData :=
  let frame_gray := cvtColor_BGRA2GRAY frame
  let r := detect_template frame_gray f.template_gray f.threshold
    (surf frame_gray f.template_gray) ⟨0, 0, 0⟩
  let f1 := { f with last_score := r.2.score }
  let f2 :=
    if r.1 then { f1 with last_x := r.2.x, last_y := r.2.y, last_valid := true }
    else if f.only_when_matched then { f1 with last_valid := false }
    else f1
  { f2 with last_detect_ts := now }

/-- The compositing tail of `shape_overlay_filter_video`: if `last_valid`
the overlay is blended at the stored location plus the configured offset,
otherwise the frame is returned untouched. -/
def compositeStep (f : FilterData) (frame : Frame) : Frame :=
  if f.last_valid then
    { frame with
        data := blend_overlay_bgra frame.data frame.linesize (frame.width : Int)
          (frame.height : Int) f.overlay_draw (f.last_x + f.offset_x)
          (f.last_y + f.offset_y) f.opacity }
  else frame

/-- The observable outcome of one `shape_overlay_filter_video` call: the
instance state after the call, the returned frame, whether a detection
attempt ran (the source's `state_updated` flag, equivalently whether
`detect_template` was invoked), and whether a format warning was logged
during this call. -/
structure VideoResult where
  filter : FilterData
  frame : Option Frame
  attempted : Bool
  warnedNow : Bool

/-- `shape_overlay_filter_video`: null check, format gate with one-time
warning, empty-image pass-through, interval-gated detection, state
write-back, and compositing.  `surf` stands for the external
`matchTemplate`/`minMaxLoc` pair and `now` for `os_gettime_ns()`. -/
def shape_overlay_filter_video (surf : GrayImage → GrayImage → MatchSurface)
    (now : Nat) (filter : FilterData) (frame? : Option Frame) : VideoResult :=
  match frame? with
  | none => ⟨filter, none, false, false⟩
  | some frame =>
    if frame.format ≠ VIDEO_FORMAT_BGRA ∧ frame.format ≠ VIDEO_FORMAT_BGRX then
      ⟨if filter.warned_format then filter else { filter with warned_format := true },
        some frame, false, !filter.warned_format⟩
    else if filter.template_gray.isEmpty || filter.overlay_draw.isEmpty then
      ⟨filter, some frame, false, false⟩
    else if shouldDetect filter now then
      let f := detectStep surf now filter frame
      ⟨f, some (compositeStep f frame), true, false⟩
    else
      ⟨filter, some (compositeStep filter frame), false, false⟩

/-- One record of `obs_data_t` settings as the filter reads them:
`obs_data_get_double` values as rationals, `obs_data_get_int` (a 64-bit
integer) as `Int`, `opacity` still in UI percent. -/
structure Settings where
  template_path : String
  overlay_path : String
  threshold : ℚ
  interval_ms : Int
  opacity : ℚ
  offset_x : Int
  offset_y : Int
  scale_overlay : Bool
  only_when_matched : Bool

/-- `std::clamp(v, lo, hi)`. -/
def clampQ (v lo hi : ℚ) : ℚ := if v < lo then lo else if hi < v then hi else v

/-- C++ `static_cast<uint32_t>` of a 64-bit integer: reduction mod 2^32. -/
def toUInt32 (v : Int) : Nat := (v % 2 ^ 32).toNat

/-- An empty grayscale `cv::Mat()`. -/
def emptyGray : GrayImage := ⟨0, 0, fun _ _ => 0⟩

/-- An empty 4-channel `cv::Mat()`. -/
def emptyOverlay : Overlay := ⟨0, 0, fun _ _ _ => 0⟩

/-- `load_template_gray`: empty path yields an empty image, otherwise
`cv::imread(path, IMREAD_GRAYSCALE)` (external, the `imreadGray` oracle). -/
def load_template_gray (imreadGray : String → GrayImage) (path : String) : GrayImage :=
  if path = "" then emptyGray else imreadGray path

/-- `cv::cvtColor(img, converted, COLOR_BGR2BGRA)`: synthesize an opaque
alpha channel. -/
def cvtColor_BGR2BGRA (img : RawImage) : Overlay :=
  ⟨img.w, img.h, fun y x c => if (c : Nat) = 3 then 255 else img.px y x (c : Nat)⟩

/-- `cv::cvtColor(img, converted, COLOR_GRAY2BGRA)`: replicate the gray
channel and synthesize an opaque alpha channel. -/
def cvtColor_GRAY2BGRA (img : RawImage) : Overlay :=
  ⟨img.w, img.h, fun y x c => if (c : Nat) = 3 then 255 else img.px y x 0⟩

/-- `load_overlay_bgra`: empty path or failed decode yields an empty image;
a 4-channel decode is used as is; 3- and 1-channel decodes are normalized
to BGRA; any other channel count yields an empty image.  `imreadUnchanged`
stands for `cv::imread(path, IMREAD_UNCHANGED)`. -/
def load_overlay_bgra (imreadUnchanged : String → RawImage) (path : String) : Overlay :=
  if path = "" then emptyOverlay
  else
    let img := imreadUnchanged path
    if img.isEmpty then emptyOverlay
    else if img.channels = 4 then ⟨img.w, img.h, fun y x c => img.px y x (c : Nat)⟩
    else if img.channels = 3 then cvtColor_BGR2BGRA img
    else if img.channels = 1 then cvtColor_GRAY2BGRA img
    else emptyOverlay

/-- `shape_overlay_filter_update`: read every setting, clamp `opacity`
(after the `/100` rescale) and `threshold` to `[0,1]`, reload both images,
rebuild `overlay_draw` (resized to the template via the external
`cv::resize` with `INTER_AREA`, the `resizeArea` oracle, when configured),
and invalidate `last_valid`. -/
def shape_overlay_filter_update (imreadGray : String → GrayImage)
    (imreadUnchanged : String → RawImage)
    (resizeArea : Overlay → Nat → Nat → Overlay)
    (f : FilterData) (s : Settings) : FilterData :=
  let threshold := clampQ s.threshold 0 1
  let opacity := clampQ (s.opacity / 100) 0 1
  let template_gray := load_template_gray imreadGray s.template_path
  let overlay_bgra := load_overlay_bgra imreadUnchanged s.overlay_path
  let overlay_draw :=
    if ¬overlay_bgra.isEmpty ∧ s.scale_overlay ∧ ¬template_gray.isEmpty then
      resizeArea overlay_bgra template_gray.w template_gray.h
    else overlay_bgra
  { f with
      template_path := s.template_path
      overlay_path := s.overlay_path
      threshold := threshold
      interval_ms := toUInt32 s.interval_ms
      opacity := opacity
      offset_x := s.offset_x
      offset_y := s.offset_y
      scale_overlay := s.scale_overlay
      only_when_matched := s.only_when_matched
      template_gray := template_gray
      overlay_bgra := overlay_bgra
      overlay_draw := overlay_draw
      last_valid := false }

/-- The destination pixel `(fy, fx)` lies inside the intersection of the
overlay rectangle placed at `(dst_x, dst_y)` with the frame bounds — the
region the two nested loops of `blend_overlay_bgra` visit. -/
def inIntersection (frame_w frame_h dst_x dst_y : Int) (ov : Overlay)
    (fy fx : Nat) : Prop :=
  max 0 dst_y ≤ (fy : Int) ∧ (fy : Int) < min frame_h (dst_y + (ov.h : Int)) ∧
  max 0 dst_x ≤ (fx : Int) ∧ (fx : Int) < min frame_w (dst_x + (ov.w : Int))

instance (frame_w frame_h dst_x dst_y : Int) (ov : Overlay) (fy fx : Nat) :
    Decidable (inIntersection frame_w frame_h dst_x dst_y ov fy fx) := by
  unfold inIntersection
  infer_instance

end ShapeOverlay

namespace ShapeOverlay

/-! Concrete instances used by the witness theorems. -/

/-- A concrete non-empty 1×1 grayscale image. -/
def cGray : GrayImage := ⟨1, 1, fun _ _ => 5⟩

/-- A concrete non-empty 1×1 fully opaque overlay. -/
def cOverlay : Overlay := ⟨1, 1, fun _ _ c => if (c : Nat) = 3 then 255 else 200⟩

/-- A concrete filter instance with both images present. -/
def cFilter : FilterData :=
  { template_path := ""
    overlay_path := ""
    template_gray := cGray
    overlay_bgra := cOverlay
    overlay_draw := cOverlay
    threshold := 1/2
    interval_ms := 0
    opacity := 1/2
    offset_x := 0
    offset_y := 0
    scale_overlay := true
    only_when_matched := true
    last_detect_ts := 0
    last_x := 0
    last_y := 0
    last_score := 0
    last_valid := false
    warned_format := false }

/-- A concrete matcher oracle reporting maximum 9/10 at (2, 3). -/
def cSurf : GrayImage → GrayImage → MatchSurface := fun _ _ => ⟨9/10, 2, 3⟩

/-- A concrete frame with an unsupported pixel format (0 = VIDEO_FORMAT_NONE). -/
def cFrameBad : Frame := ⟨0, 2, 2, 8, fun _ => 10⟩

/-- A concrete 2×2 BGRA frame. -/
def cFrameGood : Frame := ⟨VIDEO_FORMAT_BGRA, 2, 2, 8, fun _ => 10⟩

end ShapeOverlay

namespace ShapeOverlay

/-- The wrapped `uint64_t` difference agrees with plain subtraction on a
monotonic clock. -/
theorem sub64_eq_sub (a b : Nat) (hba : b ≤ a) (ha : a < 2 ^ 64) :
    sub64 a b = a - b := by
  unfold sub64
  omega

/-- `should_detect` in terms of the claim's gating condition. -/
theorem shouldDetect_iff (f : FilterData) (now : Nat)
    (hts : f.last_detect_ts ≤ now) (hnow : now < 2 ^ 64) :
    shouldDetect f now = true ↔
      (f.interval_ms = 0 ∨ f.interval_ms * 1000000 ≤ now - f.last_detect_ts) := by
  unfold shouldDetect
  rw [sub64_eq_sub now f.last_detect_ts hts hnow]
  simp

/-- C10: for a null input frame, `shape_overlay_filter_video` returns null
immediately: the state is untouched, no detection attempt is made and no
warning is emitted. -/
theorem video_null_frame (surf : GrayImage → GrayImage → MatchSurface)
    (now : Nat) (filter : FilterData) :
    shape_overlay_filter_video surf now filter none =
      ⟨filter, none, false, false⟩ := rfl

/-- C9: a configuration update sets `last_valid` to false and leaves the
other detection-state fields — timestamp, location and score — unchanged. -/
theorem update_invalidates_only_validity (imreadGray : String → GrayImage)
    (imreadUnchanged : String → RawImage)
    (resizeArea : Overlay → Nat → Nat → Overlay)
    (f : FilterData) (s : Settings) :
    (shape_overlay_filter_update imreadGray imreadUnchanged resizeArea f s).last_valid
        = false ∧
    (shape_overlay_filter_update imreadGray imreadUnchanged resizeArea f s).last_detect_ts
        = f.last_detect_ts ∧
    (shape_overlay_filter_update imreadGray imreadUnchanged resizeArea f s).last_x
        = f.last_x ∧
    (shape_overlay_filter_update imreadGray imreadUnchanged resizeArea f s).last_y
        = f.last_y ∧
    (shape_overlay_filter_update imreadGray imreadUnchanged resizeArea f s).last_score
        = f.last_score :=
  ⟨rfl, rfl, rfl, rfl, rfl⟩

/-- C6: on a degenerate matcher input (an empty frame, an empty template,
or a template exceeding the frame in either dimension) `detect_template`
returns false and leaves the match-location outputs unmodified. -/
theorem detect_fails_closed (fg tg : GrayImage) (threshold : ℚ)
    (surf : MatchSurface) (outs : DetectOuts)
    (h : fg.isEmpty = true ∨ tg.isEmpty = true ∨ fg.w < tg.w ∨ fg.h < tg.h) :
    (detect_template fg tg threshold surf outs).1 = false ∧
    (detect_template fg tg threshold surf outs).2.x = outs.x ∧
    (detect_template fg tg threshold surf outs).2.y = outs.y := by
  unfold detect_template
  by_cases h1 : (fg.isEmpty || tg.isEmpty) = true
  · simp [h1]
  · have h2 : tg.w > fg.w ∨ tg.h > fg.h := by
      rcases h with h | h | h | h
      · simp [h] at h1
      · simp [h] at h1
      · exact Or.inl h
      · exact Or.inr h
    have h3 : (decide (tg.w > fg.w) || decide (tg.h > fg.h)) = true := by
      rcases h2 with h2 | h2 <;> simp [h2]
    simp [h1, h3]

/-- C6 witness: an empty frame against a 1×1 template returns no match and
leaves the location outputs (7, 9) in place. -/
theorem detect_fails_closed_witness :
    (detect_template emptyGray cGray (1/2) ⟨9/10, 2, 3⟩ ⟨7, 9, 0⟩).1 = false ∧
    (detect_template emptyGray cGray (1/2) ⟨9/10, 2, 3⟩ ⟨7, 9, 0⟩).2.x = (⟨7, 9, 0⟩ : DetectOuts).x ∧
    (detect_template emptyGray cGray (1/2) ⟨9/10, 2, 3⟩ ⟨7, 9, 0⟩).2.y = (⟨7, 9, 0⟩ : DetectOuts).y :=
  detect_fails_closed emptyGray cGray (1/2) ⟨9/10, 2, 3⟩ ⟨7, 9, 0⟩ (Or.inl rfl)

/-- C5: on a non-degenerate matcher input the match succeeds if and only if
the maximum correlation score reaches the threshold, the comparison being
inclusive (`>=`). -/
theorem detect_threshold_inclusive (fg tg : GrayImage) (threshold : ℚ)
    (surf : MatchSurface) (outs : DetectOuts)
    (h1 : fg.isEmpty = false) (h2 : tg.isEmpty = false)
    (h3 : tg.w ≤ fg.w) (h4 : tg.h ≤ fg.h) :
    (detect_template fg tg threshold surf outs).1 = true ↔ surf.maxVal ≥ threshold := by
  unfold detect_template
  have hc1 : (fg.isEmpty || tg.isEmpty) = false := by simp [h1, h2]
  have hc2 : (decide (tg.w > fg.w) || decide (tg.h > fg.h)) = false := by
    simp [Nat.not_lt.mpr h3, Nat.not_lt.mpr h4]
  simp only [hc1, hc2, Bool.false_eq_true, if_false]
  by_cases hm : surf.maxVal ≥ threshold
  · simp [hm]
  · simp [hm]

/-- C5 witness: a score exactly equal to the threshold 1/2 counts as a
match. -/
theorem detect_threshold_inclusive_witness :
    (detect_template ⟨4, 4, fun _ _ => 0⟩ cGray (1/2) ⟨1/2, 2, 3⟩ ⟨0, 0, 0⟩).1 = true ↔
      (⟨1/2, 2, 3⟩ : MatchSurface).maxVal ≥ (1/2 : ℚ) :=
  detect_threshold_inclusive ⟨4, 4, fun _ _ => 0⟩ cGray (1/2) ⟨1/2, 2, 3⟩ ⟨0, 0, 0⟩
    rfl rfl (by decide) (by decide)

/-- C4 counterexample: on a fail-closed input (empty frame) the score
output is not written — it keeps whatever the caller stored there (42 or 7
below), not the matcher's maximum 9/10. -/
theorem detect_score_skipped_when_degenerate :
    (detect_template emptyGray cGray 0 ⟨9/10, 0, 0⟩ ⟨0, 0, 42⟩).2.score = 42 ∧
    (detect_template emptyGray cGray 0 ⟨9/10, 0, 0⟩ ⟨0, 0, 7⟩).2.score = 7 :=
  ⟨rfl, rfl⟩

/-- C4 (amended): the score output is always written once the degenerate
checks pass — on every invocation with non-empty images and a template
that fits in the frame, whether or not the match succeeds; on the
fail-closed paths the out parameters are left unmodified. -/
theorem detect_score_always_written_after_checks (fg tg : GrayImage)
    (threshold : ℚ) (surf : MatchSurface) (outs : DetectOuts)
    (h1 : fg.isEmpty = false) (h2 : tg.isEmpty = false)
    (h3 : tg.w ≤ fg.w) (h4 : tg.h ≤ fg.h) :
    (detect_template fg tg threshold surf outs).2.score = surf.maxVal := by
  unfold detect_template
  have hc1 : (fg.isEmpty || tg.isEmpty) = false := by simp [h1, h2]
  have hc2 : (decide (tg.w > fg.w) || decide (tg.h > fg.h)) = false := by
    simp [Nat.not_lt.mpr h3, Nat.not_lt.mpr h4]
  simp only [hc1, hc2, Bool.false_eq_true, if_false]
  by_cases hm : surf.maxVal ≥ threshold
  · simp [hm]
  · simp [hm]

/-- C4 witness: a sub-threshold score 1/4 (threshold 1/2) is still written
to the score output. -/
theorem detect_score_always_written_after_checks_witness :
    (detect_template ⟨4, 4, fun _ _ => 0⟩ cGray (1/2) ⟨1/4, 2, 3⟩ ⟨0, 0, 0⟩).2.score =
      (⟨1/4, 2, 3⟩ : MatchSurface).maxVal :=
  detect_score_always_written_after_checks ⟨4, 4, fun _ _ => 0⟩ cGray (1/2) ⟨1/4, 2, 3⟩
    ⟨0, 0, 0⟩ rfl rfl (by decide) (by decide)

end ShapeOverlay

namespace ShapeOverlay

/-- C1: with a supported format and both images present, a detection
attempt runs if and only if the interval gate is due (`interval_ms = 0` or
`now - last_detect_ts ≥ interval_ms` in nanoseconds); when not due the
whole instance state is unchanged and the frame is composited from the
previously stored location/validity pair. -/
theorem video_detection_gating (surf : GrayImage → GrayImage → MatchSurface)
    (now : Nat) (filter : FilterData) (frame : Frame)
    (hfmt : frame.format = VIDEO_FORMAT_BGRA ∨ frame.format = VIDEO_FORMAT_BGRX)
    (ht : filter.template_gray.isEmpty = false)
    (ho : filter.overlay_draw.isEmpty = false)
    (hts : filter.last_detect_ts ≤ now) (hnow : now < 2 ^ 64) :
    ((shape_overlay_filter_video surf now filter (some frame)).attempted = true ↔
      (filter.interval_ms = 0 ∨
        filter.interval_ms * 1000000 ≤ now - filter.last_detect_ts)) ∧
    (¬(filter.interval_ms = 0 ∨
        filter.interval_ms * 1000000 ≤ now - filter.last_detect_ts) →
      (shape_overlay_filter_video surf now filter (some frame)).filter = filter ∧
      (shape_overlay_filter_video surf now filter (some frame)).frame =
        some (compositeStep filter frame)) := by
  have hfmt2 : ¬(frame.format ≠ VIDEO_FORMAT_BGRA ∧ frame.format ≠ VIDEO_FORMAT_BGRX) := by
    rcases hfmt with h | h <;> simp [h]
  have himg : (filter.template_gray.isEmpty || filter.overlay_draw.isEmpty) = false := by
    simp [ht, ho]
  have hiff := shouldDetect_iff filter now hts hnow
  simp only [shape_overlay_filter_video]
  rw [if_neg hfmt2]
  simp only [himg, Bool.false_eq_true, if_false]
  by_cases hdet : shouldDetect filter now = true
  · rw [if_pos hdet]
    refine ⟨?_, fun hnd => absurd (hiff.mp hdet) hnd⟩
    simpa using hiff.mp hdet
  · rw [if_neg hdet]
    refine ⟨?_, fun _ => ⟨rfl, rfl⟩⟩
    constructor
    · intro hfalse
      exact absurd hfalse (by simp)
    · intro hc
      exact absurd (hiff.mpr hc) hdet

/-- C1 witness: with `interval_ms = 0` the attempt is always due. -/
theorem video_detection_gating_witness :
    ((shape_overlay_filter_video cSurf 5 cFilter (some cFrameGood)).attempted = true ↔
      (cFilter.interval_ms = 0 ∨
        cFilter.interval_ms * 1000000 ≤ 5 - cFilter.last_detect_ts)) ∧
    (¬(cFilter.interval_ms = 0 ∨
        cFilter.interval_ms * 1000000 ≤ 5 - cFilter.last_detect_ts) →
      (shape_overlay_filter_video cSurf 5 cFilter (some cFrameGood)).filter = cFilter ∧
      (shape_overlay_filter_video cSurf 5 cFilter (some cFrameGood)).frame =
        some (compositeStep cFilter cFrameGood)) :=
  video_detection_gating cSurf 5 cFilter cFrameGood (Or.inl rfl) rfl rfl
    (by decide) (by decide)

/-- C2: when a detection attempt runs, the score is stored unconditionally;
a hit stores the found location and validates the state; a miss keeps the
stored location and sets `last_valid` to `last_valid AND NOT
only_when_matched`; and the timestamp becomes `now` in every case. -/
theorem video_detection_state_update (surf : GrayImage → GrayImage → MatchSurface)
    (now : Nat) (filter : FilterData) (frame : Frame)
    (hfmt : frame.format = VIDEO_FORMAT_BGRA ∨ frame.format = VIDEO_FORMAT_BGRX)
    (ht : filter.template_gray.isEmpty = false)
    (ho : filter.overlay_draw.isEmpty = false)
    (hdet : shouldDetect filter now = true)
    (d : Bool × DetectOuts)
    (hd : d = detect_template (cvtColor_BGRA2GRAY frame) filter.template_gray
      filter.threshold (surf (cvtColor_BGRA2GRAY frame) filter.template_gray) ⟨0, 0, 0⟩) :
    (shape_overlay_filter_video surf now filter (some frame)).filter.last_score =
        d.2.score ∧
    (d.1 = true →
      (shape_overlay_filter_video surf now filter (some frame)).filter.last_x = d.2.x ∧
      (shape_overlay_filter_video surf now filter (some frame)).filter.last_y = d.2.y ∧
      (shape_overlay_filter_video surf now filter (some frame)).filter.last_valid = true) ∧
    (d.1 = false →
      (shape_overlay_filter_video surf now filter (some frame)).filter.last_valid =
        (filter.last_valid && !filter.only_when_matched) ∧
      (shape_overlay_filter_video surf now filter (some frame)).filter.last_x =
        filter.last_x ∧
      (shape_overlay_filter_video surf now filter (some frame)).filter.last_y =
        filter.last_y) ∧
    (shape_overlay_filter_video surf now filter (some frame)).filter.last_detect_ts =
      now := by
  have hfmt2 : ¬(frame.format ≠ VIDEO_FORMAT_BGRA ∧ frame.format ≠ VIDEO_FORMAT_BGRX) := by
    rcases hfmt with h | h <;> simp [h]
  have himg : (filter.template_gray.isEmpty || filter.overlay_draw.isEmpty) = false := by
    simp [ht, ho]
  simp only [shape_overlay_filter_video]
  rw [if_neg hfmt2]
  simp only [himg, Bool.false_eq_true, if_false, if_pos hdet]
  simp only [detectStep, ← hd]
  by_cases hm : d.1 = true
  · simp [hm]
  · have hm2 : d.1 = false := by
      cases hd1 : d.1
      · rfl
      · exact absurd hd1 hm
    by_cases how : filter.only_when_matched
    · simp [hm2, how]
    · have how2 : filter.only_when_matched = false := by
        cases hw : filter.only_when_matched
        · rfl
        · exact absurd hw how
      simp [hm2, how2]

/-- C2 witness: a due attempt against the concrete filter; the oracle
reports 9/10 at (2, 3). -/
theorem video_detection_state_update_witness :
    (shape_overlay_filter_video cSurf 5 cFilter (some cFrameGood)).filter.last_score =
        (detect_template (cvtColor_BGRA2GRAY cFrameGood) cFilter.template_gray
          cFilter.threshold (cSurf (cvtColor_BGRA2GRAY cFrameGood) cFilter.template_gray)
          ⟨0, 0, 0⟩).2.score ∧
    ((detect_template (cvtColor_BGRA2GRAY cFrameGood) cFilter.template_gray
        cFilter.threshold (cSurf (cvtColor_BGRA2GRAY cFrameGood) cFilter.template_gray)
        ⟨0, 0, 0⟩).1 = true →
      (shape_overlay_filter_video cSurf 5 cFilter (some cFrameGood)).filter.last_x =
        (detect_template (cvtColor_BGRA2GRAY cFrameGood) cFilter.template_gray
          cFilter.threshold (cSurf (cvtColor_BGRA2GRAY cFrameGood) cFilter.template_gray)
          ⟨0, 0, 0⟩).2.x ∧
      (shape_overlay_filter_video cSurf 5 cFilter (some cFrameGood)).filter.last_y =
        (detect_template (cvtColor_BGRA2GRAY cFrameGood) cFilter.template_gray
          cFilter.threshold (cSurf (cvtColor_BGRA2GRAY cFrameGood) cFilter.template_gray)
          ⟨0, 0, 0⟩).2.y ∧
      (shape_overlay_filter_video cSurf 5 cFilter (some cFrameGood)).filter.last_valid =
        true) ∧
    ((detect_template (cvtColor_BGRA2GRAY cFrameGood) cFilter.template_gray
        cFilter.threshold (cSurf (cvtColor_BGRA2GRAY cFrameGood) cFilter.template_gray)
        ⟨0, 0, 0⟩).1 = false →
      (shape_overlay_filter_video cSurf 5 cFilter (some cFrameGood)).filter.last_valid =
        (cFilter.last_valid && !cFilter.only_when_matched) ∧
      (shape_overlay_filter_video cSurf 5 cFilter (some cFrameGood)).filter.last_x =
        cFilter.last_x ∧
      (shape_overlay_filter_video cSurf 5 cFilter (some cFrameGood)).filter.last_y =
        cFilter.last_y) ∧
    (shape_overlay_filter_video cSurf 5 cFilter (some cFrameGood)).filter.last_detect_ts =
      5 :=
  video_detection_state_update cSurf 5 cFilter cFrameGood (Or.inl rfl) rfl rfl
    (by decide)
    (detect_template (cvtColor_BGRA2GRAY cFrameGood) cFilter.template_gray
      cFilter.threshold (cSurf (cvtColor_BGRA2GRAY cFrameGood) cFilter.template_gray)
      ⟨0, 0, 0⟩) rfl

/-- C8: an unsupported pixel format passes the frame through unchanged,
leaves every detection-state field untouched, and emits the warning only
if it was not yet emitted for this instance — afterwards the flag is set so
a later unsupported frame warns no more. -/
theorem video_unsupported_format (surf : GrayImage → GrayImage → MatchSurface)
    (now : Nat) (filter : FilterData) (frame : Frame)
    (hfmt : frame.format ≠ VIDEO_FORMAT_BGRA ∧ frame.format ≠ VIDEO_FORMAT_BGRX) :
    (shape_overlay_filter_video surf now filter (some frame)).frame = some frame ∧
    (shape_overlay_filter_video surf now filter (some frame)).filter.last_detect_ts =
      filter.last_detect_ts ∧
    (shape_overlay_filter_video surf now filter (some frame)).filter.last_x =
      filter.last_x ∧
    (shape_overlay_filter_video surf now filter (some frame)).filter.last_y =
      filter.last_y ∧
    (shape_overlay_filter_video surf now filter (some frame)).filter.last_score =
      filter.last_score ∧
    (shape_overlay_filter_video surf now filter (some frame)).filter.last_valid =
      filter.last_valid ∧
    (shape_overlay_filter_video surf now filter (some frame)).attempted = false ∧
    (shape_overlay_filter_video surf now filter (some frame)).warnedNow =
      !filter.warned_format ∧
    (shape_overlay_filter_video surf now filter (some frame)).filter.warned_format =
      true ∧
    (∀ (surf2 : GrayImage → GrayImage → MatchSurface) (now2 : Nat) (frame2 : Frame),
      frame2.format ≠ VIDEO_FORMAT_BGRA → frame2.format ≠ VIDEO_FORMAT_BGRX →
      (shape_overlay_filter_video surf2 now2
        (shape_overlay_filter_video surf now filter (some frame)).filter
        (some frame2)).warnedNow = false) := by
  simp only [shape_overlay_filter_video, if_pos hfmt]
  by_cases hw : filter.warned_format
  · rw [if_pos hw]
    refine ⟨trivial, rfl, rfl, rfl, rfl, rfl, trivial, trivial, hw, ?_⟩
    intro surf2 now2 frame2 h1 h2
    simp only [shape_overlay_filter_video, if_pos (And.intro h1 h2)]
    simp [hw]
  · rw [if_neg hw]
    refine ⟨trivial, rfl, rfl, rfl, rfl, rfl, trivial, trivial, rfl, ?_⟩
    intro surf2 now2 frame2 h1 h2
    simp only [shape_overlay_filter_video, if_pos (And.intro h1 h2)]
    simp

/-- C8 witness: a frame with format 0 against a not-yet-warned instance. -/
theorem video_unsupported_format_witness :
    (shape_overlay_filter_video cSurf 5 cFilter (some cFrameBad)).frame = some cFrameBad ∧
    (shape_overlay_filter_video cSurf 5 cFilter (some cFrameBad)).filter.last_detect_ts =
      cFilter.last_detect_ts ∧
    (shape_overlay_filter_video cSurf 5 cFilter (some cFrameBad)).filter.last_x =
      cFilter.last_x ∧
    (shape_overlay_filter_video cSurf 5 cFilter (some cFrameBad)).filter.last_y =
      cFilter.last_y ∧
    (shape_overlay_filter_video cSurf 5 cFilter (some cFrameBad)).filter.last_score =
      cFilter.last_score ∧
    (shape_overlay_filter_video cSurf 5 cFilter (some cFrameBad)).filter.last_valid =
      cFilter.last_valid ∧
    (shape_overlay_filter_video cSurf 5 cFilter (some cFrameBad)).attempted = false ∧
    (shape_overlay_filter_video cSurf 5 cFilter (some cFrameBad)).warnedNow =
      !cFilter.warned_format ∧
    (shape_overlay_filter_video cSurf 5 cFilter (some cFrameBad)).filter.warned_format =
      true ∧
    (∀ (surf2 : GrayImage → GrayImage → MatchSurface) (now2 : Nat) (frame2 : Frame),
      frame2.format ≠ VIDEO_FORMAT_BGRA → frame2.format ≠ VIDEO_FORMAT_BGRX →
      (shape_overlay_filter_video surf2 now2
        (shape_overlay_filter_video cSurf 5 cFilter (some cFrameBad)).filter
        (some frame2)).warnedNow = false) :=
  video_unsupported_format cSurf 5 cFilter cFrameBad (by decide)

end ShapeOverlay

namespace ShapeOverlay

/-- A fold whose every step leaves the bytes selected by `own` unchanged
agrees there with any reference map the start agrees with. -/
theorem foldl_fix_pred {β : Type} (step : (Nat → Nat) → β → Nat → Nat)
    (own : Nat → Prop) :
    ∀ (l : List β) (m dst : Nat → Nat),
      (∀ (m2 : Nat → Nat) (q : β), q ∈ l → ∀ i, own i → step m2 q i = m2 i) →
      (∀ j, own j → m j = dst j) → ∀ i, own i → l.foldl step m i = dst i := by
  intro l
  induction l with
  | nil => intro m dst _ hm i hi; exact hm i hi
  | cons q l ih =>
    intro m dst hstep hm i hi
    simp only [List.foldl_cons]
    exact ih (step m q) dst (fun m2 r hr => hstep m2 r (List.mem_cons_of_mem q hr))
      (fun j hj => (hstep m q (List.mem_cons_self q l) j hj).trans (hm j hj)) i hi

/-- A fold in which only the step at `p` can write the bytes selected by
`own`, and that step reads only those bytes, computes on them exactly the
single step applied to the initial map. -/
theorem foldl_split_owner {β : Type} (step : (Nat → Nat) → β → Nat → Nat)
    (own : Nat → Prop) (p : β) (l1 l2 : List β) (dst : Nat → Nat)
    (h1 : ∀ (m2 : Nat → Nat) (q : β), q ∈ l1 → ∀ i, own i → step m2 q i = m2 i)
    (h2 : ∀ (m2 : Nat → Nat) (q : β), q ∈ l2 → ∀ i, own i → step m2 q i = m2 i)
    (h3 : ∀ (m2 : Nat → Nat), (∀ j, own j → m2 j = dst j) →
      ∀ i, own i → step m2 p i = step dst p i)
    (i : Nat) (hi : own i) :
    ((l1 ++ p :: l2).foldl step dst) i = step dst p i := by
  rw [List.foldl_append]
  simp only [List.foldl_cons]
  have hagree : ∀ j, own j → (l1.foldl step dst) j = dst j :=
    fun j hj => foldl_fix_pred step own l1 dst dst h1 (fun _ _ => rfl) j hj
  exact foldl_fix_pred step own l2 (step (l1.foldl step dst) p) (step dst p) h2
    (fun j hj => h3 (l1.foldl step dst) hagree j hj) i hi

/-- Membership in the loop-coordinate list is exactly membership in the
two index ranges. -/
theorem mem_loopCoords (sy sx ny nx : Nat) (p : Nat × Nat) :
    p ∈ loopCoords sy sx ny nx ↔
      (sy ≤ p.1 ∧ p.1 < sy + ny ∧ sx ≤ p.2 ∧ p.2 < sx + nx) := by
  unfold loopCoords
  simp only [List.mem_flatMap, List.mem_map, List.mem_range]
  constructor
  · rintro ⟨ry, hry, rx, hrx, h⟩
    rw [Prod.ext_iff] at h
    simp only at h
    omega
  · rintro ⟨h1, h2, h3, h4⟩
    refine ⟨p.1 - sy, by omega, p.2 - sx, by omega, ?_⟩
    rw [Prod.ext_iff]
    constructor <;> simp <;> omega

/-- The loop visits every destination pixel at most once. -/
theorem nodup_loopCoords (sy sx ny nx : Nat) : (loopCoords sy sx ny nx).Nodup := by
  unfold loopCoords
  rw [List.nodup_flatMap]
  constructor
  · intro ry _
    exact (List.nodup_range nx).map (fun a b h => by
      rw [Prod.ext_iff] at h
      simp only at h
      omega)
  · refine List.Pairwise.imp ?_ (List.pairwise_lt_range ny)
    intro a b hab x hxa hxb
    simp only [List.mem_map, List.mem_range] at hxa hxb
    obtain ⟨rx1, _, hx1⟩ := hxa
    obtain ⟨rx2, _, hx2⟩ := hxb
    rw [← hx2, Prod.ext_iff] at hx1
    simp only at hx1
    omega

/-- A member of a duplicate-free list splits it into a prefix and suffix
that both avoid it. -/
theorem mem_nodup_split {β : Type} (l : List β) (hn : l.Nodup) (a : β) (h : a ∈ l) :
    ∃ s t, l = s ++ a :: t ∧ a ∉ s ∧ a ∉ t := by
  obtain ⟨s, t, rfl⟩ := List.append_of_mem h
  rw [List.nodup_append] at hn
  exact ⟨s, t, rfl, fun hs => hn.2.2 hs (List.mem_cons_self a t),
    (List.nodup_cons.mp hn.2.1).1⟩

/-- Uniqueness of the row/offset decomposition of a byte address. -/
theorem rowAddr_inj (L f1 r1 f2 r2 : Nat) (h1 : r1 < L) (h2 : r2 < L)
    (h : f1 * L + r1 = f2 * L + r2) : f1 = f2 ∧ r1 = r2 := by
  constructor
  · rcases Nat.lt_trichotomy f1 f2 with h3 | h3 | h3
    · nlinarith
    · exact h3
    · nlinarith
  · rcases Nat.lt_trichotomy f1 f2 with h3 | h3 | h3
    · nlinarith
    · subst h3; omega
    · nlinarith

/-- Two pixel-channel byte addresses coincide only for the same pixel and
channel, provided a row of pixels fits in the stride. -/
theorem pixelAddr_disjoint (L fy1 fx1 c1 fy2 fx2 c2 : Nat)
    (hb1 : fx1 * 4 + c1 < L) (hb2 : fx2 * 4 + c2 < L)
    (hc1 : c1 < 4) (hc2 : c2 < 4)
    (h : fy1 * L + fx1 * 4 + c1 = fy2 * L + fx2 * 4 + c2) :
    fy1 = fy2 ∧ fx1 = fx2 ∧ c1 = c2 := by
  have h0 : fy1 * L + (fx1 * 4 + c1) = fy2 * L + (fx2 * 4 + c2) := by omega
  obtain ⟨hf, hr⟩ := rowAddr_inj L fy1 (fx1 * 4 + c1) fy2 (fx2 * 4 + c2) hb1 hb2 h0
  exact ⟨hf, by omega, by omega⟩

/-- A skipped pixel (effective alpha at most 0) leaves the byte map
untouched. -/
theorem blendStep_skip (ov : Overlay) (op : ℚ) (L : Nat) (dx dy : Int)
    (m : Nat → Nat) (p : Nat × Nat)
    (h : effSrcAlpha (ov.px ((p.1 : Int) - dy).toNat ((p.2 : Int) - dx).toNat 3) op ≤ 0) :
    blendStep ov op L dx dy m p = m := by
  simp only [blendStep]
  rw [if_pos h]

/-- A blend step writes only the four bytes of its own pixel. -/
theorem blendStep_untouched (ov : Overlay) (op : ℚ) (L : Nat) (dx dy : Int)
    (m : Nat → Nat) (p : Nat × Nat) (i : Nat)
    (h : ∀ c : Nat, c < 4 → i ≠ p.1 * L + p.2 * 4 + c) :
    blendStep ov op L dx dy m p i = m i := by
  have h0 : ¬(i = p.1 * L + p.2 * 4) := by have := h 0 (by omega); omega
  have h1 : ¬(i = p.1 * L + p.2 * 4 + 1) := h 1 (by omega)
  have h2 : ¬(i = p.1 * L + p.2 * 4 + 2) := h 2 (by omega)
  have h3 : ¬(i = p.1 * L + p.2 * 4 + 3) := h 3 (by omega)
  simp only [blendStep]
  split
  · rfl
  · simp only [if_neg h0, if_neg h1, if_neg h2, if_neg h3]

/-- A blend step reads only the four bytes of its own pixel: on maps that
agree there, it produces the same bytes there. -/
theorem blendStep_agrees (ov : Overlay) (op : ℚ) (L : Nat) (dx dy : Int)
    (m dst : Nat → Nat) (p : Nat × Nat)
    (hagree : ∀ j, (∃ c : Nat, c < 4 ∧ j = p.1 * L + p.2 * 4 + c) → m j = dst j)
    (i : Nat) (hi : ∃ c : Nat, c < 4 ∧ i = p.1 * L + p.2 * 4 + c) :
    blendStep ov op L dx dy m p i = blendStep ov op L dx dy dst p i := by
  have e0 : m (p.1 * L + p.2 * 4) = dst (p.1 * L + p.2 * 4) :=
    hagree _ ⟨0, by omega, by omega⟩
  have e1 : m (p.1 * L + p.2 * 4 + 1) = dst (p.1 * L + p.2 * 4 + 1) :=
    hagree _ ⟨1, by omega, rfl⟩
  have e2 : m (p.1 * L + p.2 * 4 + 2) = dst (p.1 * L + p.2 * 4 + 2) :=
    hagree _ ⟨2, by omega, rfl⟩
  simp only [blendStep]
  split
  · exact hagree i hi
  · obtain ⟨c, hc, rfl⟩ := hi
    interval_cases c
    · simp [e0]
    · simp [e1]
    · simp [e2]
    · simp

/-- With a non-negative opacity the effective source alpha is
non-negative (so the code's `<= 0` skip test means `= 0`). -/
theorem effSrcAlpha_nonneg (alpha : Nat) (op : ℚ) (hop : 0 ≤ op) :
    0 ≤ effSrcAlpha alpha op := by
  unfold effSrcAlpha truncInt
  have hq : (0 : ℚ) ≤ (alpha : ℚ) * op + 1/2 :=
    add_nonneg (mul_nonneg (Nat.cast_nonneg alpha) hop) (by norm_num)
  rw [if_pos hq]
  exact Int.floor_nonneg.mpr hq

/-- With opacity in `[0, 1]` and a byte-valued alpha the effective source
alpha stays at most 255. -/
theorem effSrcAlpha_le_255 (alpha : Nat) (op : ℚ) (hop : 0 ≤ op) (hop1 : op ≤ 1)
    (ha : alpha ≤ 255) : effSrcAlpha alpha op ≤ 255 := by
  unfold effSrcAlpha truncInt
  have hq : (0 : ℚ) ≤ (alpha : ℚ) * op + 1/2 :=
    add_nonneg (mul_nonneg (Nat.cast_nonneg alpha) hop) (by norm_num)
  rw [if_pos hq]
  have hb : (alpha : ℚ) * op + 1/2 ≤ (255 : ℚ) + 1/2 := by
    have h1 : (alpha : ℚ) * op ≤ (alpha : ℚ) * 1 :=
      mul_le_mul_of_nonneg_left hop1 (Nat.cast_nonneg alpha)
    have h2 : ((alpha : ℚ)) ≤ 255 := by exact_mod_cast ha
    rw [mul_one] at h1
    linarith
  have hf := Int.floor_le_floor hb
  have h255 : (⌊(255 : ℚ) + 1/2⌋ : Int) = 255 := by norm_num
  omega

/-- `byteOfInt` on a cast natural is reduction mod 256. -/
theorem byteOfInt_ofNat (k : Nat) : byteOfInt (k : Int) = k % 256 := by
  unfold byteOfInt
  omega

/-- The C blend expression for one colour channel, on byte-valued inputs,
is the plain natural-number formula of the spec. -/
theorem byte_blend_eq (s d : Nat) (a : Int) (hs : s < 256) (hd : d < 256)
    (ha0 : 0 < a) (ha : a ≤ 255) :
    byteOfInt (((s : Int) * a + (d : Int) * (255 - a) + 127).tdiv 255) =
      (s * a.toNat + d * (255 - a.toNat) + 127) / 255 := by
  have han : ((a.toNat : Nat) : Int) = a := Int.toNat_of_nonneg (le_of_lt ha0)
  have hn255 : a.toNat ≤ 255 := by omega
  have hcast : (s : Int) * a + (d : Int) * (255 - a) + 127 =
      ((s * a.toNat + d * (255 - a.toNat) + 127 : Nat) : Int) := by
    push_cast [Nat.cast_sub hn255]
    rw [han]
  rw [hcast]
  have htdiv : ((s * a.toNat + d * (255 - a.toNat) + 127 : Nat) : Int).tdiv (255 : Int) =
      (((s * a.toNat + d * (255 - a.toNat) + 127) / 255 : Nat) : Int) := rfl
  rw [htdiv, byteOfInt_ofNat]
  have hb1 : s * a.toNat ≤ 255 * a.toNat := Nat.mul_le_mul_right _ (by omega)
  have hb2 : d * (255 - a.toNat) ≤ 255 * (255 - a.toNat) := Nat.mul_le_mul_right _ (by omega)
  have hnum : s * a.toNat + d * (255 - a.toNat) + 127 ≤ 65152 := by omega
  have hk : (s * a.toNat + d * (255 - a.toNat) + 127) / 255 ≤ 65152 / 255 :=
    Nat.div_le_div_right hnum
  have h65 : (65152 : Nat) / 255 = 255 := by norm_num
  omega

end ShapeOverlay

namespace ShapeOverlay

/-- The four byte values a non-skipped blend step writes at its own pixel. -/
theorem blendStep_values (ov : Overlay) (op : ℚ) (L : Nat) (dx dy : Int)
    (m : Nat → Nat) (fy fx : Nat)
    (h : ¬effSrcAlpha (ov.px ((fy : Int) - dy).toNat ((fx : Int) - dx).toNat 3) op ≤ 0) :
    blendStep ov op L dx dy m (fy, fx) (fy * L + fx * 4) =
      byteOfInt (((ov.px ((fy : Int) - dy).toNat ((fx : Int) - dx).toNat 0 : Int) *
        effSrcAlpha (ov.px ((fy : Int) - dy).toNat ((fx : Int) - dx).toNat 3) op +
        (m (fy * L + fx * 4) : Int) *
        (255 - effSrcAlpha (ov.px ((fy : Int) - dy).toNat ((fx : Int) - dx).toNat 3) op) +
        127).tdiv 255) ∧
    blendStep ov op L dx dy m (fy, fx) (fy * L + fx * 4 + 1) =
      byteOfInt (((ov.px ((fy : Int) - dy).toNat ((fx : Int) - dx).toNat 1 : Int) *
        effSrcAlpha (ov.px ((fy : Int) - dy).toNat ((fx : Int) - dx).toNat 3) op +
        (m (fy * L + fx * 4 + 1) : Int) *
        (255 - effSrcAlpha (ov.px ((fy : Int) - dy).toNat ((fx : Int) - dx).toNat 3) op) +
        127).tdiv 255) ∧
    blendStep ov op L dx dy m (fy, fx) (fy * L + fx * 4 + 2) =
      byteOfInt (((ov.px ((fy : Int) - dy).toNat ((fx : Int) - dx).toNat 2 : Int) *
        effSrcAlpha (ov.px ((fy : Int) - dy).toNat ((fx : Int) - dx).toNat 3) op +
        (m (fy * L + fx * 4 + 2) : Int) *
        (255 - effSrcAlpha (ov.px ((fy : Int) - dy).toNat ((fx : Int) - dx).toNat 3) op) +
        127).tdiv 255) ∧
    blendStep ov op L dx dy m (fy, fx) (fy * L + fx * 4 + 3) = 255 := by
  simp only [blendStep, if_neg h]
  refine ⟨?_, ?_, ?_, ?_⟩ <;> simp

/-- C7: `blend_overlay_bgra` modifies only bytes of destination pixels
inside the intersection of the overlay rectangle with the frame bounds;
an empty overlay or an empty intersection leaves the whole buffer
untouched. -/
theorem blend_clips_to_intersection (dst : Nat → Nat) (L : Nat)
    (frame_w frame_h dst_x dst_y : Int) (ov : Overlay) (op : ℚ) :
    (∀ i : Nat,
      (∀ fy : Nat, fy < frame_h.toNat → ∀ fx : Nat, fx < frame_w.toNat →
        inIntersection frame_w frame_h dst_x dst_y ov fy fx →
        ∀ c : Nat, c < 4 → i ≠ fy * L + fx * 4 + c) →
      blend_overlay_bgra dst L frame_w frame_h ov dst_x dst_y op i = dst i) ∧
    ((ov.w = 0 ∨ ov.h = 0) →
      blend_overlay_bgra dst L frame_w frame_h ov dst_x dst_y op = dst) ∧
    ((min frame_w (dst_x + (ov.w : Int)) ≤ max 0 dst_x ∨
        min frame_h (dst_y + (ov.h : Int)) ≤ max 0 dst_y) →
      blend_overlay_bgra dst L frame_w frame_h ov dst_x dst_y op = dst) := by
  refine ⟨?_, ?_, ?_⟩
  · intro i hout
    simp only [blend_overlay_bgra]
    split
    · rfl
    · split
      · rfl
      · rename_i hemp hint
        refine foldl_fix_pred (blendStep ov op L dst_x dst_y) (fun j => j = i) _ dst dst
          ?_ (fun _ _ => rfl) i rfl
        intro m2 q hq j hj
        subst hj
        apply blendStep_untouched
        intro c hc
        rw [mem_loopCoords] at hq
        push_neg at hint
        obtain ⟨hx, hy⟩ := hint
        have hfy : q.1 < frame_h.toNat := by omega
        have hfx : q.2 < frame_w.toNat := by omega
        have hins : inIntersection frame_w frame_h dst_x dst_y ov q.1 q.2 := by
          unfold inIntersection
          omega
        exact hout q.1 hfy q.2 hfx hins c hc
  · intro h
    simp only [blend_overlay_bgra]
    rw [if_pos h]
  · intro h
    simp only [blend_overlay_bgra]
    split
    · rfl
    · rfl

end ShapeOverlay

namespace ShapeOverlay

/-- C3: for every destination pixel inside the intersection rectangle the
blend computes the effective source alpha `round(alpha * opacity)`; when
it is 0 all four bytes of that pixel are untouched, otherwise each colour
channel becomes `(src*a + dst*(255-a) + 127) / 255` in integer arithmetic
and the alpha byte becomes 255; in particular overlay alpha 255 at
opacity 1/2 gives effective alpha 128. -/
theorem blend_pixel_formula (dst : Nat → Nat) (L : Nat)
    (frame_w frame_h dst_x dst_y : Int) (ov : Overlay) (op : ℚ) (fy fx : Nat)
    (hin : inIntersection frame_w frame_h dst_x dst_y ov fy fx)
    (hL : 4 * frame_w ≤ (L : Int))
    (hop0 : 0 ≤ op) (hop1 : op ≤ 1)
    (hdst : ∀ i, dst i < 256) (hpx : ∀ y x c, ov.px y x c < 256) :
    (∀ a : Int,
      a = effSrcAlpha (ov.px ((fy : Int) - dst_y).toNat ((fx : Int) - dst_x).toNat 3) op →
      (a = 0 → ∀ c : Nat, c < 4 →
        blend_overlay_bgra dst L frame_w frame_h ov dst_x dst_y op (fy * L + fx * 4 + c) =
          dst (fy * L + fx * 4 + c)) ∧
      (a ≠ 0 →
        blend_overlay_bgra dst L frame_w frame_h ov dst_x dst_y op (fy * L + fx * 4) =
          (ov.px ((fy : Int) - dst_y).toNat ((fx : Int) - dst_x).toNat 0 * a.toNat +
            dst (fy * L + fx * 4) * (255 - a.toNat) + 127) / 255 ∧
        blend_overlay_bgra dst L frame_w frame_h ov dst_x dst_y op (fy * L + fx * 4 + 1) =
          (ov.px ((fy : Int) - dst_y).toNat ((fx : Int) - dst_x).toNat 1 * a.toNat +
            dst (fy * L + fx * 4 + 1) * (255 - a.toNat) + 127) / 255 ∧
        blend_overlay_bgra dst L frame_w frame_h ov dst_x dst_y op (fy * L + fx * 4 + 2) =
          (ov.px ((fy : Int) - dst_y).toNat ((fx : Int) - dst_x).toNat 2 * a.toNat +
            dst (fy * L + fx * 4 + 2) * (255 - a.toNat) + 127) / 255 ∧
        blend_overlay_bgra dst L frame_w frame_h ov dst_x dst_y op (fy * L + fx * 4 + 3) =
          255)) ∧
    effSrcAlpha 255 (1/2) = 128 := by
  refine ⟨?_, ?_⟩
  swap
  · simp only [effSrcAlpha, truncInt]
    rw [if_pos (by norm_num)]
    norm_num
  intro a ha
  have hinq := hin
  unfold inIntersection at hinq
  obtain ⟨hy1, hy2, hx1, hx2⟩ := hinq
  have hov : ¬(ov.w = 0 ∨ ov.h = 0) := by omega
  have hne : ¬(min frame_w (dst_x + (ov.w : Int)) ≤ max 0 dst_x ∨
      min frame_h (dst_y + (ov.h : Int)) ≤ max 0 dst_y) := by omega
  have hmem : (fy, fx) ∈ loopCoords (max 0 dst_y).toNat (max 0 dst_x).toNat
      (min frame_h (dst_y + (ov.h : Int)) - max 0 dst_y).toNat
      (min frame_w (dst_x + (ov.w : Int)) - max 0 dst_x).toNat := by
    simp only [mem_loopCoords]
    omega
  have hfxb : fx * 4 + 3 < L := by omega
  have hqb : ∀ q : Nat × Nat, q ∈ loopCoords (max 0 dst_y).toNat (max 0 dst_x).toNat
      (min frame_h (dst_y + (ov.h : Int)) - max 0 dst_y).toNat
      (min frame_w (dst_x + (ov.w : Int)) - max 0 dst_x).toNat → q.2 * 4 + 3 < L := by
    intro q hq
    rw [mem_loopCoords] at hq
    omega
  have huntouch : ∀ (m2 : Nat → Nat) (q : Nat × Nat),
      q ∈ loopCoords (max 0 dst_y).toNat (max 0 dst_x).toNat
        (min frame_h (dst_y + (ov.h : Int)) - max 0 dst_y).toNat
        (min frame_w (dst_x + (ov.w : Int)) - max 0 dst_x).toNat →
      q ≠ (fy, fx) → ∀ j, (∃ c : Nat, c < 4 ∧ j = fy * L + fx * 4 + c) →
      blendStep ov op L dst_x dst_y m2 q j = m2 j := by
    intro m2 q hq hqp j hj
    obtain ⟨c, hc, rfl⟩ := hj
    apply blendStep_untouched
    intro c2 hc2 heqj
    have hb := hqb q hq
    obtain ⟨h1, h2, h3⟩ := pixelAddr_disjoint L fy fx c q.1 q.2 c2
      (by omega) (by omega) hc hc2 heqj
    apply hqp
    rw [Prod.ext_iff]
    exact ⟨h1.symm, h2.symm⟩
  obtain ⟨l1, l2, heqL, hp1, hp2⟩ := mem_nodup_split _ (nodup_loopCoords _ _ _ _) (fy, fx) hmem
  have hblend : ∀ j, (∃ c : Nat, c < 4 ∧ j = fy * L + fx * 4 + c) →
      blend_overlay_bgra dst L frame_w frame_h ov dst_x dst_y op j =
        blendStep ov op L dst_x dst_y dst (fy, fx) j := by
    intro j hj
    simp only [blend_overlay_bgra]
    rw [if_neg hov, if_neg hne, heqL]
    refine foldl_split_owner (blendStep ov op L dst_x dst_y)
      (fun j => ∃ c : Nat, c < 4 ∧ j = fy * L + fx * 4 + c) (fy, fx) l1 l2 dst
      ?_ ?_ ?_ j hj
    · intro m2 q hq
      exact huntouch m2 q (by rw [heqL]; exact List.mem_append_left _ hq)
        (fun he => hp1 (he ▸ hq))
    · intro m2 q hq
      exact huntouch m2 q (by rw [heqL]; exact List.mem_append_right _ (List.mem_cons_of_mem _ hq))
        (fun he => hp2 (he ▸ hq))
    · intro m2 hagree i hi
      exact blendStep_agrees ov op L dst_x dst_y m2 dst (fy, fx) hagree i hi
  subst ha
  constructor
  · intro ha0 c hc
    rw [hblend _ ⟨c, hc, rfl⟩,
      blendStep_skip ov op L dst_x dst_y dst (fy, fx) (le_of_eq ha0)]
  · intro hane
    have hgt : ¬effSrcAlpha (ov.px ((fy : Int) - dst_y).toNat
        ((fx : Int) - dst_x).toNat 3) op ≤ 0 := by
      have h0 := effSrcAlpha_nonneg (ov.px ((fy : Int) - dst_y).toNat
        ((fx : Int) - dst_x).toNat 3) op hop0
      omega
    have h255 : effSrcAlpha (ov.px ((fy : Int) - dst_y).toNat
        ((fx : Int) - dst_x).toNat 3) op ≤ 255 :=
      effSrcAlpha_le_255 _ op hop0 hop1
        (by have := hpx ((fy : Int) - dst_y).toNat ((fx : Int) - dst_x).toNat 3; omega)
    obtain ⟨hv0, hv1, hv2, hv3⟩ := blendStep_values ov op L dst_x dst_y dst fy fx hgt
    refine ⟨?_, ?_, ?_, ?_⟩
    · rw [hblend _ ⟨0, by omega, by omega⟩, hv0]
      exact byte_blend_eq _ _ _ (hpx _ _ 0) (hdst _) (by omega) h255
    · rw [hblend _ ⟨1, by omega, rfl⟩, hv1]
      exact byte_blend_eq _ _ _ (hpx _ _ 1) (hdst _) (by omega) h255
    · rw [hblend _ ⟨2, by omega, rfl⟩, hv2]
      exact byte_blend_eq _ _ _ (hpx _ _ 2) (hdst _) (by omega) h255
    · rw [hblend _ ⟨3, by omega, rfl⟩, hv3]

end ShapeOverlay

namespace ShapeOverlay

/-- A concrete 1×1 overlay whose every channel byte is 255 (fully opaque
white). -/
def cOverlay2 : Overlay := ⟨1, 1, fun _ _ _ => 255⟩

/-- C3 witness: blending the opaque 1×1 overlay at (0,0) over a 1×1 frame
with opacity 1/2 rewrites byte 0 by the blend formula with effective
alpha 128. -/
theorem blend_pixel_formula_witness :
    blend_overlay_bgra (fun _ => 10) 4 1 1 cOverlay2 0 0 (1/2) 0 =
      (cOverlay2.px 0 0 0 * (effSrcAlpha (cOverlay2.px 0 0 3) (1/2)).toNat +
        10 * (255 - (effSrcAlpha (cOverlay2.px 0 0 3) (1/2)).toNat) + 127) / 255 := by
  have H := blend_pixel_formula (fun _ => 10) 4 1 1 0 0 cOverlay2 (1/2) 0 0
    (by decide) (by decide) (by norm_num) (by norm_num)
    (fun _ => by norm_num) (fun _ _ _ => by simp [cOverlay2])
  have h128 : effSrcAlpha (cOverlay2.px (((0 : Nat) : Int) - 0).toNat
      (((0 : Nat) : Int) - 0).toNat 3) (1/2) = 128 := H.2
  exact ((H.1 _ rfl).2 (by rw [h128]; decide)).1

end ShapeOverlay
